import Mathlib

/-!
Verification of the yupdates SDK core logic: the ItemTime codec
(`normalize_item_time`, `parse_bounded_int` in src/lib.rs), the read-options
validator and the chunked batch submitter (src/api.rs), and the response
interpreter (src/errors.rs).

The HTTP transport and the JSON library (reqwest, serde) are external
collaborators; they are modelled as oracle parameters: the batch submitter
takes a `submit` function standing for one POST of a chunk plus the decoding
of its response, and the response interpreter takes decode functions standing
for serde_json.  Everything else is translated directly from the source.

Rust `u64` values are modelled as `Nat` with explicit bounds where the source
checks them; `str::parse::<u64>` is modelled including its overflow failure at
2^64 - 1 and its acceptance of one leading `+`.
-/

deriving instance DecidableEq for Except

/-! ## Data model (src/models.rs) -/

structure AssociatedFile where
  url : String
  length : Nat
  type_str : String
deriving DecidableEq

structure InputItem where
  title : String
  content : String
  canonical_url : String
  associated_files : Option (List AssociatedFile)
deriving DecidableEq

/-! ## Errors (src/errors.rs)

The `Kind` enum, extended with the `IllegalParameter` and `IllegalResult`
variants that src/api.rs and src/lib.rs construct.  The `Reqwest` payload (an
opaque network-library error) is modelled as a string. -/

inductive Kind where
  | Config (s : String)
  | Deserialization (s : String)
  | DetailedHttpCode (code : Nat) (msg : String)
  | HttpCode (code : Nat)
  | Reqwest (s : String)
  | IllegalParameter (s : String)
  | IllegalResult (s : String)
deriving DecidableEq

structure Error where
  kind : Kind
deriving DecidableEq

/-- The structured service-error payload shape `{code, error, error_detail}`. -/
structure ApiErrorData where
  code : Option Nat
  error : Option String
  error_detail : Option String
deriving DecidableEq

/-- src/errors.rs `msg_from_api_error_data`. -/
def msg_from_api_error_data (data : ApiErrorData) : String :=
  let err := match data.error with
    | none => ""
    | some s => s
  match data.error_detail with
  | none => err
  | some s => if err.isEmpty then s else err ++ " | " ++ s

/-- src/errors.rs `api_error`.  `decodeErr` stands for
`serde_json::from_str::<ApiErrorData>`: `some data` when the body text decodes
as the structured error shape, `none` when it does not. -/
def api_error (decodeErr : String → Option ApiErrorData) (code : Nat) (text : String) : Error :=
  match decodeErr text with
  | some data => ⟨Kind.DetailedHttpCode code (msg_from_api_error_data data)⟩
  | none => ⟨Kind.HttpCode code⟩

/-- The response-interpretation pattern shared by `ping_with_args`,
`new_items_with_args` and `read_items_with_args` (src/api.rs): on status 200
decode the expected payload, turning a decode failure into
`Kind.Deserialization` via the `From<serde_json::Error>` conversion
(src/errors.rs); on any other status produce `api_error`.  `decodeOk` stands
for `serde_json::from_str` at the success payload type, returning the decoder
error message on failure. -/
def interpret_response {α : Type} (decodeOk : String → Except String α)
    (decodeErr : String → Option ApiErrorData) (code : Nat) (text : String) : Except Error α :=
  if code = 200 then
    match decodeOk text with
    | Except.ok v => Except.ok v
    | Except.error m => Except.error ⟨Kind.Deserialization m⟩
  else
    Except.error (api_error decodeErr code text)

/-! ## ItemTime codec (src/lib.rs)

Decimal rendering of a `u64` (Rust's `Display` and the `{:0>13}` / `{:0>5}`
zero-padded formats), `str::parse::<u64>`, and `char.split('.')`, modelled
over the character list underlying a `String`. -/

/-- Big-endian decimal digits, with enough fuel for any `u64`
(`u64::MAX` has 20 digits). -/
def decDigitsGo : Nat → Nat → List Nat
  | 0, _ => []
  | fuel + 1, n => if n < 10 then [n] else decDigitsGo fuel (n / 10) ++ [n % 10]

/-- Big-endian decimal digits of a `u64` value. -/
def decDigits (n : Nat) : List Nat := decDigitsGo 20 n

/-- Rust's `u64` `Display`: the plain decimal string `"{}"`. -/
def decimalString (n : Nat) : String :=
  String.mk ((decDigits n).map Nat.digitChar)

/-- Rust's `"{:0>w}"` format on a `u64`: the decimal string, left-padded with
the character `'0'` up to width `w` (never truncated). -/
def fmtFixed (w : Nat) (n : Nat) : String :=
  let ds := (decDigits n).map Nat.digitChar
  String.mk (List.replicate (w - ds.length) '0' ++ ds)

/-- The numeric value of a big-endian digit list. -/
def ofDigits (l : List Nat) : Nat := l.foldl (fun a d => 10 * a + d) 0

/-- The digits of `n` left-padded with zeros to width `w`: the digit list
underlying `fmtFixed w n`. -/
def padDigits (w : Nat) (n : Nat) : List Nat :=
  List.replicate (w - (decDigits n).length) 0 ++ decDigits n

/-- The canonical ItemTime rendering `format!("{:0>13}.{:0>5}", base_ms, slot)`
from `normalize_item_time` (src/lib.rs line 140). -/
def canonicalItemTime (base_ms slot : Nat) : String :=
  fmtFixed 13 base_ms ++ "." ++ fmtFixed 5 slot

/-- `str::parse::<u64>` accepts one leading `+` sign. -/
def stripPlus : List Char → List Char
  | [] => []
  | c :: rest => if c = '+' then rest else c :: rest

/-- The numeric value of `u64::MAX`. -/
def u64Max : Nat := 18446744073709551615

/-- `str::parse::<u64>` after sign stripping: one or more ASCII digits whose
value fits in a `u64`. -/
def parseDigits (digits : List Char) : Option Nat :=
  if digits.isEmpty then none
  else if digits.all (fun c => c.isDigit) then
    if digits.foldl (fun a c => 10 * a + (c.toNat - 48)) 0 ≤ u64Max then
      some (digits.foldl (fun a c => 10 * a + (c.toNat - 48)) 0)
    else none
  else none

/-- Rust's `str::parse::<u64>`, over the underlying characters:
`none` is `Err`, `some n` is `Ok(n)`. -/
def parseU64Chars (l : List Char) : Option Nat := parseDigits (stripPlus l)

/-- Rust's `str::parse::<u64>` on a string. -/
def parseU64 (s : String) : Option Nat := parseU64Chars s.data

/-- Rust's `split('.')` over the characters of a string: the groups between
occurrences of `'.'`, keeping empty groups (so `""` gives `[""]` and `"a."`
gives `["a", ""]`). -/
def splitDot : List Char → List (List Char)
  | [] => [[]]
  | c :: rest =>
    if c = '.' then [] :: splitDot rest
    else
      match splitDot rest with
      | [] => [[c]]
      | g :: gs => (c :: g) :: gs

/-- `it.split('.').collect::<Vec<&str>>()` from `normalize_item_time`. -/
def rustSplitDot (s : String) : List String :=
  (splitDot s.data).map String.mk

/-- src/lib.rs `parse_bounded_int`. -/
def parse_bounded_int (int_str : String) (name : String) (upper_bound : Nat) : Except Error Nat :=
  match parseU64 int_str with
  | none => Except.error ⟨Kind.IllegalParameter ("invalid u64: '" ++ int_str ++ "'")⟩
  | some parsed =>
    if parsed > upper_bound then
      Except.error ⟨Kind.IllegalParameter ("item time " ++ name ++ " may not be larger than "
        ++ decimalString upper_bound ++ ": '" ++ decimalString parsed ++ "'")⟩
    else
      Except.ok parsed

/-- The body of `normalize_item_time` after the split: parse both segments with
their bounds and render the canonical form. -/
def normalizeParts (base_str slot_str : String) : Except Error String := do
  let base_ms ← parse_bounded_int base_str "base ms" 9999999999999
  let slot ← parse_bounded_int slot_str "suffix" 99999
  pure (fmtFixed 13 base_ms ++ "." ++ fmtFixed 5 slot)

/-- src/lib.rs `normalize_item_time`. -/
def normalize_item_time (item_time : String) : Except Error String :=
  let it := item_time
  match rustSplitDot it with
  | [_] => normalizeParts it "0"
  | [p0, p1] => normalizeParts p0 p1
  | _ => Except.error ⟨Kind.Deserialization ("invalid item time: '" ++ it ++ "'")⟩

/-! ## Read options (src/api.rs) -/

/-- src/api.rs `ReadOptions`.  `max_items` is a Rust `usize`. -/
structure ReadOptions where
  max_items : Nat
  include_item_content : Bool
  item_time_after : Option String
  item_time_before : Option String
deriving DecidableEq

/-- src/api.rs `validate_read_options`. -/
def validate_read_options (given : ReadOptions) : Except Error ReadOptions :=
  if given.include_item_content ∧ (given.max_items < 1 ∨ given.max_items > 10) then
    Except.error ⟨Kind.IllegalParameter ("`max_items` must be 1 to 10 when `include_item_content` is true, received "
      ++ decimalString given.max_items)⟩
  else if given.max_items < 1 ∨ given.max_items > 50 then
    Except.error ⟨Kind.IllegalParameter ("`max_items` must be 1 to 50, received "
      ++ decimalString given.max_items)⟩
  else if given.item_time_after.isSome ∧ given.item_time_before.isSome then
    Except.error ⟨Kind.IllegalParameter "cannot simultaneously query with `item_time_after` and `item_time_before`"⟩
  else do
    let item_time_after ← match given.item_time_after with
      | none => pure (none : Option String)
      | some it => do pure (some (← normalize_item_time it))
    let item_time_before ← match given.item_time_before with
      | none => pure (none : Option String)
      | some it => do pure (some (← normalize_item_time it))
    pure ⟨given.max_items, given.include_item_content, item_time_after, item_time_before⟩

/-! ## Batch submitter (src/api.rs)

`new_items_with_args` performs one POST of at most 10 items; the POST itself
and the decoding of its response body are the external transport, modelled by
the `submit` oracle (`Except.ok` is a 200 response whose body decoded,
`Except.error` any transport, HTTP or decode failure).  Alongside the result
we record the observable effects: which chunks were sent over the network, and
the sleeps between chunks. -/

structure NewInputItemsResponse where
  code : Nat
  feed_id : String
  message : String
deriving DecidableEq

/-- An observable effect of the batch submitter: a network submission of a
chunk, or an inter-chunk sleep of `ms` milliseconds. -/
inductive Event where
  | post (items : List InputItem)
  | sleep (ms : Nat)
deriving DecidableEq

/-- src/api.rs `new_items_with_args`: reject more than 10 items before any
network call, otherwise perform the submission.  The second component lists
the network calls made. -/
def new_items_with_args (submit : List InputItem → Except Error NewInputItemsResponse)
    (items : List InputItem) : Except Error NewInputItemsResponse × List (List InputItem) :=
  if items.length > 10 then
    (Except.error ⟨Kind.IllegalParameter ("too many items (" ++ decimalString items.length
      ++ "). See chunking example (new_items_all) to send 10 at a time.")⟩, [])
  else
    (submit items, [items])

/-- `items.chunks(10)` with explicit fuel (the list length bounds the number
of chunks once `0 < n`). -/
def chunksGo (n : Nat) : Nat → List InputItem → List (List InputItem)
  | 0, _ => []
  | _ + 1, [] => []
  | fuel + 1, x :: xs => (x :: xs).take n :: chunksGo n fuel ((x :: xs).drop n)

/-- Rust's `slice::chunks(n)`: consecutive chunks of at most `n` elements, the
last one possibly shorter; the empty slice yields no chunks. -/
def chunksOf (n : Nat) (l : List InputItem) : List (List InputItem) :=
  chunksGo n l.length l

/-- The `while let Some(chunk) = chunks.next()` loop of
`new_items_all_with_args`: submit each chunk, capture the feed id of the first
successful chunk only, sleep after a chunk when more remain (the peek), and
fail with `IllegalResult` when the loop ends without a feed id. -/
def new_items_all_loop (submit : List InputItem → Except Error NewInputItemsResponse)
    (sleep_ms : Nat) : List (List InputItem) → Option String → Except Error String × List Event
  | [], feed_id =>
    match feed_id with
    | none => (Except.error ⟨Kind.IllegalResult "new items API success(es) without a feed ID"⟩, [])
    | some fid => (Except.ok fid, [])
  | chunk :: rest, feed_id =>
    let step := new_items_with_args submit chunk
    let evs := step.2.map Event.post
    match step.1 with
    | Except.error e => (Except.error e, evs)
    | Except.ok response =>
      let feed_id' := if feed_id.isNone then some response.feed_id else feed_id
      let evs' := if rest.isEmpty then evs else evs ++ [Event.sleep sleep_ms]
      let next := new_items_all_loop submit sleep_ms rest feed_id'
      (next.1, evs' ++ next.2)

/-- src/api.rs `new_items_all_with_args`. -/
def new_items_all_with_args (submit : List InputItem → Except Error NewInputItemsResponse)
    (items : List InputItem) (sleep_ms : Nat) : Except Error String × List Event :=
  if sleep_ms < 5 then
    (Except.error ⟨Kind.IllegalParameter ("sleep_ms (" ++ decimalString sleep_ms
      ++ ") must be 5 or more")⟩, [])
  else
    new_items_all_loop submit sleep_ms (chunksOf 10 items) none

/-! ## Helper predicates used in theorem statements -/

/-- The result is an `IllegalParameter` failure (of any message). -/
def isIllegalParamErr {α : Type} : Except Error α → Bool
  | Except.error ⟨Kind.IllegalParameter _⟩ => true
  | _ => false

/-- The result is a `Deserialization` failure (of any message). -/
def isDeserializationErr {α : Type} : Except Error α → Bool
  | Except.error ⟨Kind.Deserialization _⟩ => true
  | _ => false

/-- `pat` occurs as a contiguous substring of `s`. -/
def strContainsSub (pat s : String) : Prop :=
  ∃ l r, s.data = l ++ (pat.data ++ r)

/-! ## Lemmas about chunking -/

theorem chunksGo_nil (n : Nat) : ∀ fuel, chunksGo n fuel ([] : List InputItem) = [] := by
  intro fuel
  cases fuel <;> rfl

theorem chunksGo_fuel (n : Nat) (hn : 1 ≤ n) :
    ∀ fuel fuel' (l : List InputItem), l.length ≤ fuel → l.length ≤ fuel' →
      chunksGo n fuel l = chunksGo n fuel' l := by
  intro fuel
  induction fuel with
  | zero =>
    intro fuel' l hl _
    have hnil : l = [] := List.eq_nil_of_length_eq_zero (Nat.le_zero.mp hl)
    subst hnil
    rw [chunksGo_nil, chunksGo_nil]
  | succ f ih =>
    intro fuel' l hl hl'
    cases l with
    | nil => rw [chunksGo_nil, chunksGo_nil]
    | cons x xs =>
      cases fuel' with
      | zero => simp at hl'
      | succ f' =>
        show (x :: xs).take n :: chunksGo n f ((x :: xs).drop n)
            = (x :: xs).take n :: chunksGo n f' ((x :: xs).drop n)
        congr 1
        apply ih
        · simp only [List.length_drop, List.length_cons] at *
          omega
        · simp only [List.length_drop, List.length_cons] at *
          omega

theorem chunksOf_ne_nil_eq (n : Nat) (hn : 1 ≤ n) (l : List InputItem) (h : l ≠ []) :
    chunksOf n l = l.take n :: chunksOf n (l.drop n) := by
  cases l with
  | nil => exact absurd rfl h
  | cons x xs =>
    show (x :: xs).take n :: chunksGo n xs.length ((x :: xs).drop n)
        = (x :: xs).take n :: chunksOf n ((x :: xs).drop n)
    congr 1
    apply chunksGo_fuel n hn
    · simp only [List.length_drop, List.length_cons]
      omega
    · exact le_refl _

theorem chunksGo_mem_length (n : Nat) :
    ∀ fuel (l : List InputItem), ∀ c ∈ chunksGo n fuel l, c.length ≤ n := by
  intro fuel
  induction fuel with
  | zero => intro l c hc; simp [chunksGo] at hc
  | succ f ih =>
    intro l c hc
    cases l with
    | nil => simp [chunksGo] at hc
    | cons x xs =>
      rcases List.mem_cons.mp hc with rfl | hc'
      · rw [List.length_take]
        exact min_le_left _ _
      · exact ih _ c hc'

theorem chunksOf_length_le (n : Nat) (l : List InputItem) :
    ∀ c ∈ chunksOf n l, c.length ≤ n :=
  chunksGo_mem_length n l.length l

theorem chunksGo_join (n : Nat) (hn : 1 ≤ n) :
    ∀ fuel (l : List InputItem), l.length ≤ fuel → (chunksGo n fuel l).flatten = l := by
  intro fuel
  induction fuel with
  | zero =>
    intro l hl
    have hnil : l = [] := List.eq_nil_of_length_eq_zero (Nat.le_zero.mp hl)
    subst hnil
    rfl
  | succ f ih =>
    intro l hl
    cases l with
    | nil => rfl
    | cons x xs =>
      show ((x :: xs).take n :: chunksGo n f ((x :: xs).drop n)).flatten = x :: xs
      rw [List.flatten_cons, ih ((x :: xs).drop n)
        (by simp only [List.length_drop, List.length_cons] at *; omega)]
      exact List.take_append_drop n (x :: xs)

theorem chunksOf_join (n : Nat) (hn : 1 ≤ n) (l : List InputItem) :
    (chunksOf n l).flatten = l :=
  chunksGo_join n hn l.length l (le_refl _)

/-! ## Lemmas about the submission loop -/

theorem new_items_with_args_small (submit : List InputItem → Except Error NewInputItemsResponse)
    (chunk : List InputItem) (h : chunk.length ≤ 10) :
    new_items_with_args submit chunk = (submit chunk, [chunk]) := by
  unfold new_items_with_args
  rw [if_neg (by omega)]

theorem loop_nil (submit : List InputItem → Except Error NewInputItemsResponse)
    (ms : Nat) (feed : Option String) :
    new_items_all_loop submit ms [] feed
      = (match feed with
         | none => (Except.error ⟨Kind.IllegalResult "new items API success(es) without a feed ID"⟩, [])
         | some fid => (Except.ok fid, [])) := rfl

theorem loop_cons_ok (submit : List InputItem → Except Error NewInputItemsResponse)
    (ms : Nat) (c : List InputItem) (rest : List (List InputItem)) (feed : Option String)
    (r : NewInputItemsResponse) (hlen : c.length ≤ 10) (hr : submit c = Except.ok r) :
    new_items_all_loop submit ms (c :: rest) feed
      = ((new_items_all_loop submit ms rest (if feed.isNone then some r.feed_id else feed)).1,
         (if rest.isEmpty then [Event.post c] else [Event.post c, Event.sleep ms])
           ++ (new_items_all_loop submit ms rest (if feed.isNone then some r.feed_id else feed)).2) := by
  show (let step := new_items_with_args submit c;
        let evs := step.2.map Event.post;
        match step.1 with
        | Except.error e => (Except.error e, evs)
        | Except.ok response =>
          let feed_id' := if feed.isNone then some response.feed_id else feed
          let evs' := if rest.isEmpty then evs else evs ++ [Event.sleep ms]
          let next := new_items_all_loop submit ms rest feed_id'
          (next.1, evs' ++ next.2)) = _
  rw [new_items_with_args_small submit c hlen]
  simp only [hr, List.map_cons, List.map_nil]
  cases rest with
  | nil => rfl
  | cons c₂ rest₂ => rfl

theorem loop_cons_err (submit : List InputItem → Except Error NewInputItemsResponse)
    (ms : Nat) (c : List InputItem) (rest : List (List InputItem)) (feed : Option String)
    (e : Error) (hlen : c.length ≤ 10) (he : submit c = Except.error e) :
    new_items_all_loop submit ms (c :: rest) feed = (Except.error e, [Event.post c]) := by
  show (let step := new_items_with_args submit c;
        let evs := step.2.map Event.post;
        match step.1 with
        | Except.error e => (Except.error e, evs)
        | Except.ok response =>
          let feed_id' := if feed.isNone then some response.feed_id else feed
          let evs' := if rest.isEmpty then evs else evs ++ [Event.sleep ms]
          let next := new_items_all_loop submit ms rest feed_id'
          (next.1, evs' ++ next.2)) = _
  rw [new_items_with_args_small submit c hlen]
  simp only [he, List.map_cons, List.map_nil]

theorem loop_trace_all_ok (submit : List InputItem → Except Error NewInputItemsResponse)
    (ms : Nat) :
    ∀ (chunks : List (List InputItem)) (feed : Option String),
      (∀ c ∈ chunks, c.length ≤ 10) → (∀ c ∈ chunks, ∃ r, submit c = Except.ok r) →
      (new_items_all_loop submit ms chunks feed).2
        = List.intersperse (Event.sleep ms) (chunks.map Event.post) := by
  intro chunks
  induction chunks with
  | nil => intro feed _ _; cases feed <;> rfl
  | cons c rest ih =>
    intro feed hlen hok
    obtain ⟨r, hr⟩ := hok c (List.mem_cons_self c rest)
    rw [loop_cons_ok submit ms c rest feed r (hlen c (List.mem_cons_self c rest)) hr]
    have ih' := ih (if feed.isNone then some r.feed_id else feed)
      (fun c' hc' => hlen c' (List.mem_cons_of_mem c hc'))
      (fun c' hc' => hok c' (List.mem_cons_of_mem c hc'))
    cases rest with
    | nil => cases feed <;> rfl
    | cons c₂ rest₂ =>
      simp only [List.isEmpty_cons, List.map_cons, List.intersperse_cons_cons]
      rw [ih']
      rfl

theorem loop_fst_some (submit : List InputItem → Except Error NewInputItemsResponse)
    (ms : Nat) :
    ∀ (chunks : List (List InputItem)) (fid : String),
      (∀ c ∈ chunks, c.length ≤ 10) → (∀ c ∈ chunks, ∃ r, submit c = Except.ok r) →
      (new_items_all_loop submit ms chunks (some fid)).1 = Except.ok fid := by
  intro chunks
  induction chunks with
  | nil => intro fid _ _; rfl
  | cons c rest ih =>
    intro fid hlen hok
    obtain ⟨r, hr⟩ := hok c (List.mem_cons_self c rest)
    rw [loop_cons_ok submit ms c rest (some fid) r (hlen c (List.mem_cons_self c rest)) hr]
    exact ih fid (fun c' hc' => hlen c' (List.mem_cons_of_mem c hc'))
      (fun c' hc' => hok c' (List.mem_cons_of_mem c hc'))

theorem loop_err_after_pre (submit : List InputItem → Except Error NewInputItemsResponse)
    (ms : Nat) (c : List InputItem) (suf : List (List InputItem)) (e : Error)
    (hc : c.length ≤ 10) (he : submit c = Except.error e) :
    ∀ (pre : List (List InputItem)) (feed : Option String),
      (∀ c' ∈ pre, c'.length ≤ 10) → (∀ c' ∈ pre, ∃ r, submit c' = Except.ok r) →
      new_items_all_loop submit ms (pre ++ c :: suf) feed
        = (Except.error e,
           (pre.map (fun c' => [Event.post c', Event.sleep ms])).flatten ++ [Event.post c]) := by
  intro pre
  induction pre with
  | nil =>
    intro feed _ _
    simpa using loop_cons_err submit ms c suf feed e hc he
  | cons p pre' ih =>
    intro feed hlen hok
    obtain ⟨r, hr⟩ := hok p (List.mem_cons_self p pre')
    rw [List.cons_append,
      loop_cons_ok submit ms p (pre' ++ c :: suf) feed r (hlen p (List.mem_cons_self p pre')) hr,
      ih (if feed.isNone then some r.feed_id else feed)
        (fun c' hc' => hlen c' (List.mem_cons_of_mem p hc'))
        (fun c' hc' => hok c' (List.mem_cons_of_mem p hc'))]
    have hne : (pre' ++ c :: suf).isEmpty = false := by
      cases pre' <;> rfl
    rw [hne]
    simp

/-! ## Claims C1, C2, C9 -/

/-- C1: for every item list and every `sleep_ms ≥ 5` (and submissions that
succeed), `new_items_all` partitions the list into consecutive chunks of at
most 10 items, submits them in order via the single-chunk primitive with a
sleep after every chunk except the last, and returns the feed id from the
first chunk's response, ignoring feed ids of later chunks; 24 items give
chunks of sizes 10, 10, 4. -/
theorem new_items_all_chunking
    (submit : List InputItem → Except Error NewInputItemsResponse)
    (items : List InputItem) (sleep_ms : Nat)
    (h5 : 5 ≤ sleep_ms)
    (hok : ∀ c, ∃ r, submit c = Except.ok r) :
    (∀ c ∈ chunksOf 10 items, c.length ≤ 10) ∧
    (chunksOf 10 items).flatten = items ∧
    (new_items_all_with_args submit items sleep_ms).2
      = List.intersperse (Event.sleep sleep_ms) ((chunksOf 10 items).map Event.post) ∧
    (items ≠ [] →
      (new_items_all_with_args submit items sleep_ms).1
        = Except.map (fun r => r.feed_id) (submit (items.take 10))) ∧
    (items.length = 24 → (chunksOf 10 items).map List.length = [10, 10, 4]) := by
  have hno : ¬ sleep_ms < 5 := by omega
  have hmain : new_items_all_with_args submit items sleep_ms
      = new_items_all_loop submit sleep_ms (chunksOf 10 items) none := by
    unfold new_items_all_with_args
    rw [if_neg hno]
  refine ⟨chunksOf_length_le 10 items, chunksOf_join 10 (by omega) items, ?_, ?_, ?_⟩
  · rw [hmain]
    exact loop_trace_all_ok submit sleep_ms (chunksOf 10 items) none
      (chunksOf_length_le 10 items) (fun c _ => hok c)
  · intro hne
    obtain ⟨r, hr⟩ := hok (items.take 10)
    rw [hmain, chunksOf_ne_nil_eq 10 (by omega) items hne,
      loop_cons_ok submit sleep_ms (items.take 10) (chunksOf 10 (items.drop 10)) none r
        (by rw [List.length_take]; exact min_le_left _ _) hr]
    simp only [Option.isNone_none, if_pos trivial]
    rw [loop_fst_some submit sleep_ms (chunksOf 10 (items.drop 10)) r.feed_id
      (chunksOf_length_le 10 (items.drop 10)) (fun c _ => hok c), hr]
    rfl
  · intro h24
    have h1 : items ≠ [] := by
      intro h; rw [h] at h24; simp at h24
    have h2 : items.drop 10 ≠ [] := by
      intro h
      have := congrArg List.length h
      simp only [List.length_drop, h24] at this
      simp at this
    have h3 : (items.drop 10).drop 10 ≠ [] := by
      intro h
      have := congrArg List.length h
      simp only [List.length_drop, h24] at this
      simp at this
    have h4 : ((items.drop 10).drop 10).drop 10 = [] := by
      apply List.eq_nil_of_length_eq_zero
      simp only [List.length_drop, h24]
    rw [chunksOf_ne_nil_eq 10 (by omega) items h1,
      chunksOf_ne_nil_eq 10 (by omega) (items.drop 10) h2,
      chunksOf_ne_nil_eq 10 (by omega) ((items.drop 10).drop 10) h3,
      h4]
    simp only [chunksOf, List.length_nil, List.map_cons, List.map_nil]
    show [(items.take 10).length, ((items.drop 10).take 10).length,
      (((items.drop 10).drop 10).take 10).length] = [10, 10, 4]
    simp only [List.length_take, List.length_drop, h24]
    decide

/-- C1 witness: a concrete 24-item submission with an always-succeeding
transport realises the chunk trace and the `[10, 10, 4]` chunk sizes. -/
theorem new_items_all_chunking_witness :
    (new_items_all_with_args (fun _ => Except.ok ⟨200, "feedX", "ok"⟩)
        (List.replicate 24 (⟨"t", "c", "u", none⟩ : InputItem)) 7).2
      = List.intersperse (Event.sleep 7)
          ((chunksOf 10 (List.replicate 24 (⟨"t", "c", "u", none⟩ : InputItem))).map Event.post) ∧
    (chunksOf 10 (List.replicate 24 (⟨"t", "c", "u", none⟩ : InputItem))).map List.length
      = [10, 10, 4] := by
  have h := new_items_all_chunking (fun _ => Except.ok ⟨200, "feedX", "ok"⟩)
    (List.replicate 24 (⟨"t", "c", "u", none⟩ : InputItem)) 7 (by decide)
    (fun c => ⟨⟨200, "feedX", "ok"⟩, rfl⟩)
  exact ⟨h.2.2.1, h.2.2.2.2 (by decide)⟩

/-- C2: `new_items_all` fails with `IllegalParameter` before any submission
when `sleep_ms < 5`; fails with `IllegalResult` on an empty item list; and the
first failing chunk aborts the whole operation with that chunk's error, with
no further chunks submitted (the trace ends at the failing chunk, and the
earlier submissions remain — no rollback). -/
theorem new_items_all_failure_semantics
    (submit : List InputItem → Except Error NewInputItemsResponse)
    (items : List InputItem) (sleep_ms : Nat) :
    (sleep_ms < 5 →
      new_items_all_with_args submit items sleep_ms
        = (Except.error ⟨Kind.IllegalParameter ("sleep_ms (" ++ decimalString sleep_ms
            ++ ") must be 5 or more")⟩, [])) ∧
    (5 ≤ sleep_ms → items = [] →
      new_items_all_with_args submit items sleep_ms
        = (Except.error ⟨Kind.IllegalResult "new items API success(es) without a feed ID"⟩, [])) ∧
    (∀ pre c suf e, 5 ≤ sleep_ms →
      chunksOf 10 items = pre ++ c :: suf →
      (∀ c' ∈ pre, ∃ r, submit c' = Except.ok r) →
      submit c = Except.error e →
      new_items_all_with_args submit items sleep_ms
        = (Except.error e,
           (pre.map (fun c' => [Event.post c', Event.sleep sleep_ms])).flatten ++ [Event.post c])) := by
  refine ⟨?_, ?_, ?_⟩
  · intro h
    unfold new_items_all_with_args
    rw [if_pos h]
  · intro h5 hnil
    subst hnil
    unfold new_items_all_with_args
    rw [if_neg (by omega)]
    rfl
  · intro pre c suf e h5 hsplit hok he
    have hclen : ∀ c' ∈ chunksOf 10 items, c'.length ≤ 10 := chunksOf_length_le 10 items
    have hc : c.length ≤ 10 := by
      apply hclen
      rw [hsplit]
      exact List.mem_append_right pre (List.mem_cons_self c suf)
    have hpre : ∀ c' ∈ pre, c'.length ≤ 10 := by
      intro c' hc'
      apply hclen
      rw [hsplit]
      exact List.mem_append_left _ hc'
    unfold new_items_all_with_args
    rw [if_neg (by omega), hsplit]
    exact loop_err_after_pre submit sleep_ms c suf e hc he pre none hpre hok

/-- C2 witness: the three failure modes at concrete inputs — `sleep_ms = 4`,
an empty list, and a transport that fails on the third (4-element) chunk of a
24-item list. -/
theorem new_items_all_failure_semantics_witness :
    (new_items_all_with_args (fun _ => Except.ok ⟨200, "f", "m"⟩)
        [⟨"t", "c", "u", none⟩] 4
      = (Except.error ⟨Kind.IllegalParameter "sleep_ms (4) must be 5 or more"⟩, [])) ∧
    (new_items_all_with_args (fun _ => Except.ok ⟨200, "f", "m"⟩) [] 7
      = (Except.error ⟨Kind.IllegalResult "new items API success(es) without a feed ID"⟩, [])) ∧
    (new_items_all_with_args
        (fun c => if c.length = 4 then Except.error ⟨Kind.HttpCode 500⟩
                  else Except.ok ⟨200, "f", "m"⟩)
        (List.replicate 24 (⟨"t", "c", "u", none⟩ : InputItem)) 7
      = (Except.error ⟨Kind.HttpCode 500⟩,
         [Event.post (List.replicate 10 ⟨"t", "c", "u", none⟩), Event.sleep 7,
          Event.post (List.replicate 10 ⟨"t", "c", "u", none⟩), Event.sleep 7,
          Event.post (List.replicate 4 ⟨"t", "c", "u", none⟩)])) := by
  refine ⟨?_, ?_, ?_⟩
  · exact (new_items_all_failure_semantics (fun _ => Except.ok ⟨200, "f", "m"⟩)
      [⟨"t", "c", "u", none⟩] 4).1 (by decide)
  · exact (new_items_all_failure_semantics (fun _ => Except.ok ⟨200, "f", "m"⟩) [] 7).2.1
      (by decide) rfl
  · have h := (new_items_all_failure_semantics
      (fun c => if c.length = 4 then Except.error ⟨Kind.HttpCode 500⟩
                else Except.ok ⟨200, "f", "m"⟩)
      (List.replicate 24 (⟨"t", "c", "u", none⟩ : InputItem)) 7).2.2
      [List.replicate 10 ⟨"t", "c", "u", none⟩, List.replicate 10 ⟨"t", "c", "u", none⟩]
      (List.replicate 4 ⟨"t", "c", "u", none⟩) [] ⟨Kind.HttpCode 500⟩
      (by decide) (by decide)
      (by
        intro c' hc'
        refine ⟨⟨200, "f", "m"⟩, ?_⟩
        rcases List.mem_pair.mp hc' with rfl | rfl <;> rfl)
      (by rfl)
    rw [h]
    rfl

/-- C9: the single-chunk submit primitive rejects more than 10 items with
`IllegalParameter` before any network call (empty trace), independent of
`new_items_all`. -/
theorem new_items_rejects_oversized
    (submit : List InputItem → Except Error NewInputItemsResponse)
    (items : List InputItem) (h : 10 < items.length) :
    new_items_with_args submit items
      = (Except.error ⟨Kind.IllegalParameter ("too many items (" ++ decimalString items.length
          ++ "). See chunking example (new_items_all) to send 10 at a time.")⟩, []) := by
  unfold new_items_with_args
  rw [if_pos h]

/-- C9 witness: 11 items are rejected with no network call. -/
theorem new_items_rejects_oversized_witness :
    new_items_with_args (fun _ => Except.ok ⟨200, "f", "m"⟩)
        (List.replicate 11 (⟨"t", "c", "u", none⟩ : InputItem))
      = (Except.error ⟨Kind.IllegalParameter
          "too many items (11). See chunking example (new_items_all) to send 10 at a time."⟩,
         []) := by
  have h := new_items_rejects_oversized (fun _ => Except.ok ⟨200, "f", "m"⟩)
    (List.replicate 11 (⟨"t", "c", "u", none⟩ : InputItem)) (by decide)
  rw [h]
  rfl

/-! ## Decimal digit arithmetic -/

theorem foldl_ofDigits :
    ∀ (l : List Nat) (a : Nat),
      l.foldl (fun a d => 10 * a + d) a = a * 10 ^ l.length + ofDigits l := by
  intro l
  induction l with
  | nil => intro a; simp [ofDigits]
  | cons d l ih =>
    intro a
    have hof : ofDigits (d :: l) = d * 10 ^ l.length + ofDigits l := by
      show l.foldl _ (10 * 0 + d) = _
      rw [ih]
      simp
    show l.foldl _ (10 * a + d) = a * 10 ^ (d :: l).length + ofDigits (d :: l)
    rw [ih, hof, List.length_cons]
    ring

theorem ofDigits_cons (d : Nat) (l : List Nat) :
    ofDigits (d :: l) = d * 10 ^ l.length + ofDigits l := by
  show l.foldl _ (10 * 0 + d) = _
  rw [foldl_ofDigits]
  simp

theorem ofDigits_append_digit (l : List Nat) (d : Nat) :
    ofDigits (l ++ [d]) = 10 * ofDigits l + d := by
  show (l ++ [d]).foldl _ 0 = _
  rw [List.foldl_append]
  rfl

theorem ofDigits_replicate_zero (k : Nat) (l : List Nat) :
    ofDigits (List.replicate k 0 ++ l) = ofDigits l := by
  induction k with
  | zero => rfl
  | succ k ih =>
    rw [List.replicate_succ, List.cons_append, ofDigits_cons, ih]
    simp

theorem ofDigits_lt_pow (l : List Nat) (h : ∀ d ∈ l, d < 10) :
    ofDigits l < 10 ^ l.length := by
  induction l with
  | nil => simp [ofDigits]
  | cons d l ih =>
    rw [ofDigits_cons, List.length_cons, pow_succ]
    have hd : d < 10 := h d (List.mem_cons_self d l)
    have hl : ofDigits l < 10 ^ l.length := ih (fun d' hd' => h d' (List.mem_cons_of_mem d hd'))
    calc d * 10 ^ l.length + ofDigits l < d * 10 ^ l.length + 10 ^ l.length := by omega
    _ = (d + 1) * 10 ^ l.length := by ring
    _ ≤ 10 * 10 ^ l.length := Nat.mul_le_mul_right _ (by omega)
    _ = 10 ^ l.length * 10 := by ring

theorem decDigitsGo_lt10 : ∀ fuel n, ∀ d ∈ decDigitsGo fuel n, d < 10 := by
  intro fuel
  induction fuel with
  | zero => intro n d hd; simp [decDigitsGo] at hd
  | succ f ih =>
    intro n d hd
    by_cases h : n < 10
    · simp only [decDigitsGo, if_pos h, List.mem_singleton] at hd
      omega
    · simp only [decDigitsGo, if_neg h, List.mem_append, List.mem_singleton] at hd
      rcases hd with hd | hd
      · exact ih _ d hd
      · subst hd
        exact Nat.mod_lt _ (by omega)

theorem decDigitsGo_ne_nil (fuel n : Nat) (h : 0 < fuel) : decDigitsGo fuel n ≠ [] := by
  cases fuel with
  | zero => omega
  | succ f =>
    show (if n < 10 then [n] else decDigitsGo f (n / 10) ++ [n % 10]) ≠ []
    split
    · simp
    · simp

theorem ofDigits_decDigitsGo : ∀ fuel n, n < 10 ^ fuel → ofDigits (decDigitsGo fuel n) = n := by
  intro fuel
  induction fuel with
  | zero =>
    intro n h
    have : n = 0 := by simpa using h
    subst this
    rfl
  | succ f ih =>
    intro n h
    by_cases h10 : n < 10
    · simp only [decDigitsGo, if_pos h10]
      show [n].foldl _ 0 = n
      simp
    · simp only [decDigitsGo, if_neg h10]
      rw [ofDigits_append_digit, ih (n / 10) (by rw [pow_succ] at h; omega)]
      omega

theorem length_decDigitsGo_le :
    ∀ fuel n w, 1 ≤ w → n < 10 ^ w → w ≤ fuel → (decDigitsGo fuel n).length ≤ w := by
  intro fuel
  induction fuel with
  | zero => intro n w hw _ hwf; omega
  | succ f ih =>
    intro n w hw hn hwf
    by_cases h10 : n < 10
    · simp only [decDigitsGo, if_pos h10, List.length_singleton]
      omega
    · simp only [decDigitsGo, if_neg h10, List.length_append, List.length_singleton]
      have hw2 : 2 ≤ w := by
        by_contra hcon
        have hw1 : w = 1 := by omega
        subst hw1
        rw [pow_one] at hn
        omega
      have hdiv : n / 10 < 10 ^ (w - 1) := by
        have hw1 : w - 1 + 1 = w := by omega
        rw [← hw1, pow_succ] at hn
        exact (Nat.div_lt_iff_lt_mul (by omega)).mpr hn
      have := ih (n / 10) (w - 1) (by omega) hdiv (by omega)
      omega

theorem ofDigits_decDigits (n : Nat) (h : n < 10 ^ 20) : ofDigits (decDigits n) = n :=
  ofDigits_decDigitsGo 20 n h

theorem decDigits_lt10 (n : Nat) : ∀ d ∈ decDigits n, d < 10 :=
  decDigitsGo_lt10 20 n

theorem decDigits_ne_nil (n : Nat) : decDigits n ≠ [] :=
  decDigitsGo_ne_nil 20 n (by omega)

theorem length_decDigits_le (n w : Nat) (hw : 1 ≤ w) (h : n < 10 ^ w) (hwf : w ≤ 20) :
    (decDigits n).length ≤ w :=
  length_decDigitsGo_le 20 n w hw h hwf

theorem padDigits_lt10 (w n : Nat) : ∀ d ∈ padDigits w n, d < 10 := by
  intro d hd
  rcases List.mem_append.mp hd with hd | hd
  · have := List.eq_of_mem_replicate hd
    omega
  · exact decDigits_lt10 n d hd

theorem padDigits_ne_nil (w n : Nat) : padDigits w n ≠ [] := by
  unfold padDigits
  intro h
  exact decDigits_ne_nil n (List.append_eq_nil.mp h).2

theorem ofDigits_padDigits (w n : Nat) (h : n < 10 ^ 20) : ofDigits (padDigits w n) = n := by
  rw [padDigits, ofDigits_replicate_zero, ofDigits_decDigits n h]

theorem length_padDigits (w n : Nat) (hw : 1 ≤ w) (hwf : w ≤ 20) (h : n < 10 ^ w) :
    (padDigits w n).length = w := by
  have hle := length_decDigits_le n w hw h hwf
  simp only [padDigits, List.length_append, List.length_replicate]
  omega

theorem fmtFixed_data (w n : Nat) :
    (fmtFixed w n).data = (padDigits w n).map Nat.digitChar := by
  show List.replicate (w - ((decDigits n).map Nat.digitChar).length) '0'
      ++ (decDigits n).map Nat.digitChar = _
  rw [List.length_map, padDigits, List.map_append, List.map_replicate]
  rfl

/-! ## Digit characters and parsing back -/

theorem digitChar_toNat : ∀ d, d < 10 → (Nat.digitChar d).toNat = 48 + d := by decide

theorem digitChar_isDigit : ∀ d, d < 10 → (Nat.digitChar d).isDigit = true := by decide

theorem digitChar_ne_plus : ∀ d, d < 10 → Nat.digitChar d ≠ '+' := by decide

theorem digitChar_ne_dot : ∀ d, d < 10 → Nat.digitChar d ≠ '.' := by decide

theorem digitChar_lt_iff : ∀ a, a < 10 → ∀ b, b < 10 →
    ((Nat.digitChar a < Nat.digitChar b) ↔ a < b) := by decide

theorem digitChar_eq_iff : ∀ a, a < 10 → ∀ b, b < 10 →
    ((Nat.digitChar a = Nat.digitChar b) ↔ a = b) := by decide

theorem foldl_map_digitChar (l : List Nat) (h : ∀ d ∈ l, d < 10) :
    ∀ a, (l.map Nat.digitChar).foldl (fun a c => 10 * a + (c.toNat - 48)) a
      = l.foldl (fun a d => 10 * a + d) a := by
  induction l with
  | nil => intro a; rfl
  | cons d l ih =>
    intro a
    show (l.map _).foldl _ (10 * a + ((Nat.digitChar d).toNat - 48)) = l.foldl _ (10 * a + d)
    rw [digitChar_toNat d (h d (List.mem_cons_self d l)), show 48 + d - 48 = d from by omega]
    exact ih (fun d' hd' => h d' (List.mem_cons_of_mem d hd')) _

theorem parseU64Chars_map_digitChar (l : List Nat) (hne : l ≠ [])
    (h : ∀ d ∈ l, d < 10) (hbound : ofDigits l ≤ u64Max) :
    parseU64Chars (l.map Nat.digitChar) = some (ofDigits l) := by
  have hstrip : stripPlus (l.map Nat.digitChar) = l.map Nat.digitChar := by
    cases l with
    | nil => rfl
    | cons d l' =>
      show (if Nat.digitChar d = '+' then _ else _) = _
      rw [if_neg (digitChar_ne_plus d (h d (List.mem_cons_self d l')))]
      exact (List.map_cons _ _ _).symm
  show parseDigits (stripPlus (l.map Nat.digitChar)) = _
  rw [hstrip]
  unfold parseDigits
  rw [if_neg (by
    cases l with
    | nil => exact absurd rfl hne
    | cons d l' => simp)]
  rw [if_pos (by
    rw [List.all_eq_true]
    intro c hc
    obtain ⟨d, hd, rfl⟩ := List.mem_map.mp hc
    exact digitChar_isDigit d (h d hd))]
  rw [foldl_map_digitChar l h 0]
  show (if ofDigits l ≤ u64Max then some (ofDigits l) else none) = _
  rw [if_pos hbound]

/-! ## Splitting lemmas -/

theorem splitDot_ne_nil : ∀ l, splitDot l ≠ [] := by
  intro l
  cases l with
  | nil => simp [splitDot]
  | cons c rest =>
    show (if c = '.' then [] :: splitDot rest
          else match splitDot rest with
               | [] => [[c]]
               | g :: gs => (c :: g) :: gs) ≠ []
    split
    · simp
    · split <;> simp

theorem splitDot_no_dot (l : List Char) (h : ∀ c ∈ l, c ≠ '.') : splitDot l = [l] := by
  induction l with
  | nil => rfl
  | cons c rest ih =>
    show (if c = '.' then [] :: splitDot rest
          else match splitDot rest with
               | [] => [[c]]
               | g :: gs => (c :: g) :: gs) = [c :: rest]
    rw [if_neg (h c (List.mem_cons_self c rest)),
      ih (fun c' hc' => h c' (List.mem_cons_of_mem c hc'))]

theorem splitDot_append (l₁ l₂ : List Char) (h : ∀ c ∈ l₁, c ≠ '.') :
    splitDot (l₁ ++ '.' :: l₂) = l₁ :: splitDot l₂ := by
  induction l₁ with
  | nil =>
    show (if ('.' : Char) = '.' then [] :: splitDot l₂
          else match splitDot l₂ with
               | [] => [['.']]
               | g :: gs => ('.' :: g) :: gs) = [] :: splitDot l₂
    rw [if_pos rfl]
  | cons c l₁' ih =>
    show (if c = '.' then [] :: splitDot (l₁' ++ '.' :: l₂)
          else match splitDot (l₁' ++ '.' :: l₂) with
               | [] => [[c]]
               | g :: gs => (c :: g) :: gs) = (c :: l₁') :: splitDot l₂
    rw [if_neg (h c (List.mem_cons_self c l₁')),
      ih (fun c' hc' => h c' (List.mem_cons_of_mem c hc'))]

theorem data_append (s t : String) : (s ++ t).data = s.data ++ t.data := by
  cases s
  cases t
  rfl

theorem mk_append (a b : List Char) : String.mk a ++ String.mk b = String.mk (a ++ b) := rfl

theorem map_digitChar_no_dot (l : List Nat) (h : ∀ d ∈ l, d < 10) :
    ∀ c ∈ l.map Nat.digitChar, c ≠ '.' := by
  intro c hc
  obtain ⟨d, hd, rfl⟩ := List.mem_map.mp hc
  exact digitChar_ne_dot d (h d hd)

theorem rustSplitDot_two_blocks (l₁ l₂ : List Char) (h₁ : ∀ c ∈ l₁, c ≠ '.')
    (h₂ : ∀ c ∈ l₂, c ≠ '.') :
    rustSplitDot (String.mk (l₁ ++ '.' :: l₂)) = [String.mk l₁, String.mk l₂] := by
  show (splitDot (l₁ ++ '.' :: l₂)).map String.mk = _
  rw [splitDot_append l₁ l₂ h₁, splitDot_no_dot l₂ h₂]
  rfl

/-! ## Evaluation lemmas for the codec -/

theorem parse_bounded_int_of_parse (s name : String) (ub n : Nat)
    (hp : parseU64 s = some n) (hle : n ≤ ub) :
    parse_bounded_int s name ub = Except.ok n := by
  unfold parse_bounded_int
  rw [hp]
  show (if n > ub then _ else _) = _
  rw [if_neg (by omega)]

theorem parse_bounded_int_none (s name : String) (ub : Nat) (hp : parseU64 s = none) :
    parse_bounded_int s name ub
      = Except.error ⟨Kind.IllegalParameter ("invalid u64: '" ++ s ++ "'")⟩ := by
  unfold parse_bounded_int
  rw [hp]

theorem parse_bounded_int_big (s name : String) (ub n : Nat)
    (hp : parseU64 s = some n) (hgt : ub < n) :
    parse_bounded_int s name ub
      = Except.error ⟨Kind.IllegalParameter ("item time " ++ name ++ " may not be larger than "
          ++ decimalString ub ++ ": '" ++ decimalString n ++ "'")⟩ := by
  unfold parse_bounded_int
  rw [hp]
  show (if n > ub then _ else _) = _
  rw [if_pos (by omega)]

theorem normalizeParts_ok (b sl : String) (n m : Nat)
    (hb : parseU64 b = some n) (hbn : n ≤ 9999999999999)
    (hs : parseU64 sl = some m) (hsm : m ≤ 99999) :
    normalizeParts b sl = Except.ok (canonicalItemTime n m) := by
  unfold normalizeParts
  rw [parse_bounded_int_of_parse b "base ms" 9999999999999 n hb hbn,
    parse_bounded_int_of_parse sl "suffix" 99999 m hs hsm]
  rfl

theorem normalizeParts_is_illegal_of_fail (b sl : String)
    (h : parseU64 b = none ∨ parseU64 sl = none
      ∨ (∃ n, parseU64 b = some n ∧ 9999999999999 < n)
      ∨ (∃ m, parseU64 sl = some m ∧ 99999 < m)) :
    isIllegalParamErr (normalizeParts b sl) = true := by
  rcases hb : parseU64 b with _ | n
  · rw [show normalizeParts b sl = _ from by
      unfold normalizeParts
      rw [parse_bounded_int_none b "base ms" 9999999999999 hb]]
    rfl
  · by_cases hbn : 9999999999999 < n
    · rw [show normalizeParts b sl = _ from by
        unfold normalizeParts
        rw [parse_bounded_int_big b "base ms" 9999999999999 n hb hbn]]
      rfl
    · rcases hs : parseU64 sl with _ | m
      · rw [show normalizeParts b sl = _ from by
          unfold normalizeParts
          rw [parse_bounded_int_of_parse b "base ms" 9999999999999 n hb (by omega),
            parse_bounded_int_none sl "suffix" 99999 hs]]
        rfl
      · have hsm : 99999 < m := by
          rcases h with h | h | ⟨n', hn', hgt⟩ | ⟨m', hm', hgt⟩
          · rw [hb] at h; cases h
          · rw [hs] at h; cases h
          · rw [hb] at hn'
            injection hn' with hn'
            omega
          · rw [hs] at hm'
            injection hm' with hm'
            omega
        rw [show normalizeParts b sl = _ from by
          unfold normalizeParts
          rw [parse_bounded_int_of_parse b "base ms" 9999999999999 n hb (by omega),
            parse_bounded_int_big sl "suffix" 99999 m hs hsm]]
        rfl

theorem normalize_eq_match (s : String) :
    normalize_item_time s
      = match rustSplitDot s with
        | [_] => normalizeParts s "0"
        | [p0, p1] => normalizeParts p0 p1
        | _ => Except.error ⟨Kind.Deserialization ("invalid item time: '" ++ s ++ "'")⟩ := rfl

theorem normalize_of_split_one (s : String) (h : (rustSplitDot s).length = 1) :
    normalize_item_time s = normalizeParts s "0" := by
  obtain ⟨x, hx⟩ := List.length_eq_one.mp h
  rw [normalize_eq_match, hx]

theorem normalize_of_split_two (s b sl : String) (h : rustSplitDot s = [b, sl]) :
    normalize_item_time s = normalizeParts b sl := by
  rw [normalize_eq_match, h]

theorem normalize_of_split_many (s : String) (h : 2 < (rustSplitDot s).length) :
    normalize_item_time s
      = Except.error ⟨Kind.Deserialization ("invalid item time: '" ++ s ++ "'")⟩ := by
  rcases hl : rustSplitDot s with _ | ⟨a, _ | ⟨b, _ | ⟨c, rest⟩⟩⟩
  · rw [hl] at h; simp at h
  · rw [hl] at h; simp at h
  · rw [hl] at h; simp at h
  · rw [normalize_eq_match, hl]

/-! ## Claims C3, C4, C6 -/

/-- C3 counterexample: on an input with more than one `.` the failure kind is
`Deserialization`, not `IllegalParameter` as the claim states. -/
theorem normalize_multi_dot_not_illegal_param :
    normalize_item_time "1.2.3"
      = Except.error ⟨Kind.Deserialization "invalid item time: '1.2.3'"⟩ ∧
    isIllegalParamErr (normalize_item_time "1.2.3") = false :=
  ⟨rfl, rfl⟩

/-- C3 (amended): `normalize_item_time` fails with `Deserialization` when the
string has more than one `.`, and with `IllegalParameter` when a segment does
not parse as a non-negative integer, or base > 9,999,999,999,999, or
slot > 99,999. -/
theorem normalize_item_time_failure_kinds (s : String) :
    (2 < (rustSplitDot s).length →
      normalize_item_time s
        = Except.error ⟨Kind.Deserialization ("invalid item time: '" ++ s ++ "'")⟩) ∧
    ((rustSplitDot s).length = 1 →
      (parseU64 s = none ∨ (∃ n, parseU64 s = some n ∧ 9999999999999 < n)) →
      isIllegalParamErr (normalize_item_time s) = true) ∧
    (∀ b sl, rustSplitDot s = [b, sl] →
      (parseU64 b = none ∨ parseU64 sl = none
        ∨ (∃ n, parseU64 b = some n ∧ 9999999999999 < n)
        ∨ (∃ m, parseU64 sl = some m ∧ 99999 < m)) →
      isIllegalParamErr (normalize_item_time s) = true) := by
  refine ⟨normalize_of_split_many s, ?_, ?_⟩
  · intro h1 hcond
    rw [normalize_of_split_one s h1]
    apply normalizeParts_is_illegal_of_fail
    rcases hcond with h | ⟨n, hn, hgt⟩
    · exact Or.inl h
    · exact Or.inr (Or.inr (Or.inl ⟨n, hn, hgt⟩))
  · intro b sl h2 hcond
    rw [normalize_of_split_two s b sl h2]
    exact normalizeParts_is_illegal_of_fail b sl hcond

/-- C3 witness: a non-numeric single segment and an oversized slot both yield
`IllegalParameter`. -/
theorem normalize_item_time_failure_kinds_witness :
    isIllegalParamErr (normalize_item_time "12x") = true ∧
    isIllegalParamErr (normalize_item_time "123456789.1234567") = true := by
  refine ⟨?_, ?_⟩
  · exact (normalize_item_time_failure_kinds "12x").2.1 rfl (Or.inl rfl)
  · exact (normalize_item_time_failure_kinds "123456789.1234567").2.2 "123456789" "1234567"
      rfl (Or.inr (Or.inr (Or.inr ⟨1234567, rfl, by norm_num⟩)))

theorem fmtFixed_length (w n : Nat) (hw : 1 ≤ w) (hwf : w ≤ 20) (h : n < 10 ^ w) :
    (fmtFixed w n).length = w := by
  show ((fmtFixed w n).data).length = w
  rw [fmtFixed_data, List.length_map, length_padDigits w n hw hwf h]

/-- C4: every valid input — a plain non-negative integer string (slot 0
implied), or `"<base>.<slot>"` with base ≤ 9,999,999,999,999 and
slot ≤ 99,999 — succeeds, returning the base padded to 13 digits and the slot
padded to 5 digits, joined by `.`. -/
theorem normalize_item_time_valid (s : String) :
    ((rustSplitDot s).length = 1 →
      ∀ n, parseU64 s = some n → n ≤ 9999999999999 →
        normalize_item_time s = Except.ok (canonicalItemTime n 0) ∧
        (fmtFixed 13 n).length = 13 ∧ (fmtFixed 5 0).length = 5) ∧
    (∀ b sl, rustSplitDot s = [b, sl] →
      ∀ n m, parseU64 b = some n → n ≤ 9999999999999 → parseU64 sl = some m → m ≤ 99999 →
        normalize_item_time s = Except.ok (canonicalItemTime n m) ∧
        (fmtFixed 13 n).length = 13 ∧ (fmtFixed 5 m).length = 5) := by
  constructor
  · intro h1 n hn hbound
    refine ⟨?_, ?_, ?_⟩
    · rw [normalize_of_split_one s h1]
      exact normalizeParts_ok s "0" n 0 hn hbound rfl (by omega)
    · exact fmtFixed_length 13 n (by omega) (by omega) (by omega)
    · exact fmtFixed_length 5 0 (by omega) (by omega) (by omega)
  · intro b sl h2 n m hn hnb hm hmb
    refine ⟨?_, ?_, ?_⟩
    · rw [normalize_of_split_two s b sl h2]
      exact normalizeParts_ok b sl n m hn hnb hm hmb
    · exact fmtFixed_length 13 n (by omega) (by omega) (by omega)
    · exact fmtFixed_length 5 m (by omega) (by omega) (by omega)

/-- C4 witness: both accepted input shapes at concrete values. -/
theorem normalize_item_time_valid_witness :
    normalize_item_time "123456.789" = Except.ok (canonicalItemTime 123456 789) ∧
    normalize_item_time "1234" = Except.ok (canonicalItemTime 1234 0) := by
  refine ⟨?_, ?_⟩
  · exact ((normalize_item_time_valid "123456.789").2 "123456" "789" rfl 123456 789
      rfl (by norm_num) rfl (by norm_num)).1
  · exact ((normalize_item_time_valid "1234").1 rfl 1234 rfl (by norm_num)).1

theorem decimalString_concat_data (B S : Nat) :
    decimalString B ++ "." ++ decimalString S
      = String.mk ((decDigits B).map Nat.digitChar
          ++ '.' :: (decDigits S).map Nat.digitChar) := by
  show String.mk (((decDigits B).map Nat.digitChar ++ ['.'])
      ++ (decDigits S).map Nat.digitChar) = _
  rw [List.append_assoc]
  rfl

theorem canonicalItemTime_mk (b s : Nat) :
    canonicalItemTime b s
      = String.mk ((padDigits 13 b).map Nat.digitChar
          ++ '.' :: (padDigits 5 s).map Nat.digitChar) := by
  have hd : (canonicalItemTime b s).data
      = (padDigits 13 b).map Nat.digitChar ++ '.' :: (padDigits 5 s).map Nat.digitChar := by
    show ((fmtFixed 13 b ++ "." ++ fmtFixed 5 s)).data = _
    rw [data_append, data_append, fmtFixed_data, fmtFixed_data, List.append_assoc]
    rfl
  exact congrArg String.mk hd

/-- C6: for bounded B and S, normalizing the plain rendering `"{B}.{S}"`
yields the zero-padded canonical string, and normalizing that canonical
string again returns it unchanged (idempotence). -/
theorem normalize_canonical_idempotent (B S : Nat)
    (hB : B ≤ 9999999999999) (hS : S ≤ 99999) :
    normalize_item_time (decimalString B ++ "." ++ decimalString S)
      = Except.ok (canonicalItemTime B S) ∧
    normalize_item_time (canonicalItemTime B S) = Except.ok (canonicalItemTime B S) := by
  have hB20 : B < 10 ^ 20 := by norm_num at *; omega
  have hS20 : S < 10 ^ 20 := by norm_num at *; omega
  constructor
  · rw [decimalString_concat_data B S]
    have hsplit : rustSplitDot (String.mk ((decDigits B).map Nat.digitChar
        ++ '.' :: (decDigits S).map Nat.digitChar))
        = [decimalString B, decimalString S] :=
      rustSplitDot_two_blocks _ _ (map_digitChar_no_dot _ (decDigits_lt10 B))
        (map_digitChar_no_dot _ (decDigits_lt10 S))
    rw [normalize_of_split_two _ _ _ hsplit]
    have hpB : parseU64 (decimalString B) = some B := by
      show parseU64Chars ((decDigits B).map Nat.digitChar) = some B
      rw [parseU64Chars_map_digitChar (decDigits B) (decDigits_ne_nil B) (decDigits_lt10 B)
        (by rw [ofDigits_decDigits B hB20]; show B ≤ u64Max; unfold u64Max; omega),
        ofDigits_decDigits B hB20]
    have hpS : parseU64 (decimalString S) = some S := by
      show parseU64Chars ((decDigits S).map Nat.digitChar) = some S
      rw [parseU64Chars_map_digitChar (decDigits S) (decDigits_ne_nil S) (decDigits_lt10 S)
        (by rw [ofDigits_decDigits S hS20]; show S ≤ u64Max; unfold u64Max; omega),
        ofDigits_decDigits S hS20]
    exact normalizeParts_ok _ _ B S hpB hB hpS hS
  · rw [canonicalItemTime_mk B S]
    have hsplit : rustSplitDot (String.mk ((padDigits 13 B).map Nat.digitChar
        ++ '.' :: (padDigits 5 S).map Nat.digitChar))
        = [String.mk ((padDigits 13 B).map Nat.digitChar),
           String.mk ((padDigits 5 S).map Nat.digitChar)] :=
      rustSplitDot_two_blocks _ _ (map_digitChar_no_dot _ (padDigits_lt10 13 B))
        (map_digitChar_no_dot _ (padDigits_lt10 5 S))
    rw [normalize_of_split_two _ _ _ hsplit]
    have hpB : parseU64 (String.mk ((padDigits 13 B).map Nat.digitChar)) = some B := by
      show parseU64Chars ((padDigits 13 B).map Nat.digitChar) = some B
      rw [parseU64Chars_map_digitChar (padDigits 13 B) (padDigits_ne_nil 13 B)
        (padDigits_lt10 13 B)
        (by rw [ofDigits_padDigits 13 B hB20]; show B ≤ u64Max; unfold u64Max; omega),
        ofDigits_padDigits 13 B hB20]
    have hpS : parseU64 (String.mk ((padDigits 5 S).map Nat.digitChar)) = some S := by
      show parseU64Chars ((padDigits 5 S).map Nat.digitChar) = some S
      rw [parseU64Chars_map_digitChar (padDigits 5 S) (padDigits_ne_nil 5 S)
        (padDigits_lt10 5 S)
        (by rw [ofDigits_padDigits 5 S hS20]; show S ≤ u64Max; unfold u64Max; omega),
        ofDigits_padDigits 5 S hS20]
    rw [← canonicalItemTime_mk B S]
    exact normalizeParts_ok _ _ B S hpB hB hpS hS

/-- C6 witness: the round trip and idempotence at a concrete base and slot. -/
theorem normalize_canonical_idempotent_witness :
    normalize_item_time (decimalString 1661564013555 ++ "." ++ decimalString 3)
      = Except.ok (canonicalItemTime 1661564013555 3) ∧
    normalize_item_time (canonicalItemTime 1661564013555 3)
      = Except.ok (canonicalItemTime 1661564013555 3) :=
  normalize_canonical_idempotent 1661564013555 3 (by norm_num) (by norm_num)

/-! ## Lexicographic order of canonical strings (C5) -/

theorem lex_cons_iff_char (a b : Char) (l₁ l₂ : List Char) :
    List.Lex (· < ·) (a :: l₁) (b :: l₂) ↔ a < b ∨ (a = b ∧ List.Lex (· < ·) l₁ l₂) := by
  constructor
  · intro h
    cases h with
    | cons h => exact Or.inr ⟨rfl, h⟩
    | rel h => exact Or.inl h
  · rintro (h | ⟨rfl, h⟩)
    · exact List.Lex.rel h
    · exact List.Lex.cons h

theorem base_pow_lt_iff (P a b x y : Nat) (hx : x < P) (hy : y < P) :
    a * P + x < b * P + y ↔ (a < b ∨ (a = b ∧ x < y)) := by
  constructor
  · intro h
    rcases Nat.lt_trichotomy a b with hab | hab | hab
    · exact Or.inl hab
    · subst hab
      exact Or.inr ⟨rfl, by omega⟩
    · exfalso
      have h2 : b * P + P ≤ a * P := by
        have := Nat.mul_le_mul_right P (show b + 1 ≤ a by omega)
        rwa [Nat.succ_mul] at this
      omega
  · rintro (hab | ⟨rfl, hxy⟩)
    · have h2 : a * P + P ≤ b * P := by
        have := Nat.mul_le_mul_right P (show a + 1 ≤ b by omega)
        rwa [Nat.succ_mul] at this
      omega
    · omega

theorem lex_map_digitChar_iff (l₁ : List Nat) :
    ∀ l₂ : List Nat, l₁.length = l₂.length → (∀ d ∈ l₁, d < 10) → (∀ d ∈ l₂, d < 10) →
      (List.Lex (· < ·) (l₁.map Nat.digitChar) (l₂.map Nat.digitChar)
        ↔ ofDigits l₁ < ofDigits l₂) := by
  induction l₁ with
  | nil =>
    intro l₂ hlen _ _
    have hnil : l₂ = [] := (List.length_eq_zero.mp hlen.symm)
    subst hnil
    constructor
    · intro h
      exact absurd h (List.Lex.not_nil_right _ _)
    · intro h
      simp [ofDigits] at h
  | cons d l ih =>
    intro l₂ hlen h₁ h₂
    cases l₂ with
    | nil => simp at hlen
    | cons e l' =>
      have hd : d < 10 := h₁ d (List.mem_cons_self d l)
      have he : e < 10 := h₂ e (List.mem_cons_self e l')
      have hL : l.length = l'.length := by simpa using hlen
      have htail₁ : ∀ d' ∈ l, d' < 10 := fun d' hd' => h₁ d' (List.mem_cons_of_mem d hd')
      have htail₂ : ∀ d' ∈ l', d' < 10 := fun d' hd' => h₂ d' (List.mem_cons_of_mem e hd')
      simp only [List.map_cons]
      rw [lex_cons_iff_char, digitChar_lt_iff d hd e he, digitChar_eq_iff d hd e he,
        ih l' hL htail₁ htail₂, ofDigits_cons, ofDigits_cons, hL]
      exact (base_pow_lt_iff (10 ^ l'.length) d e (ofDigits l) (ofDigits l')
        (hL ▸ ofDigits_lt_pow l htail₁) (ofDigits_lt_pow l' htail₂)).symm

theorem map_digitChar_inj (l₁ : List Nat) :
    ∀ l₂ : List Nat, (∀ d ∈ l₁, d < 10) → (∀ d ∈ l₂, d < 10) →
      l₁.map Nat.digitChar = l₂.map Nat.digitChar → l₁ = l₂ := by
  induction l₁ with
  | nil =>
    intro l₂ _ _ h
    cases l₂ with
    | nil => rfl
    | cons e l' => simp at h
  | cons d l ih =>
    intro l₂ h₁ h₂ h
    cases l₂ with
    | nil => simp at h
    | cons e l' =>
      simp only [List.map_cons, List.cons.injEq] at h
      obtain ⟨hde, ht⟩ := h
      have hde' : d = e := (digitChar_eq_iff d (h₁ d (List.mem_cons_self d l)) e
        (h₂ e (List.mem_cons_self e l'))).mp hde
      subst hde'
      rw [ih l' (fun d' hd' => h₁ d' (List.mem_cons_of_mem d hd'))
        (fun d' hd' => h₂ d' (List.mem_cons_of_mem d hd')) ht]

theorem lex_append_iff (xs : List Char) :
    ∀ (ys t u : List Char), xs.length = ys.length →
      (List.Lex (· < ·) (xs ++ t) (ys ++ u)
        ↔ List.Lex (· < ·) xs ys ∨ (xs = ys ∧ List.Lex (· < ·) t u)) := by
  induction xs with
  | nil =>
    intro ys t u hlen
    have hnil : ys = [] := List.length_eq_zero.mp hlen.symm
    subst hnil
    simp only [List.nil_append]
    constructor
    · intro h
      exact Or.inr ⟨by trivial, h⟩
    · rintro (h | ⟨_, h⟩)
      · exact absurd h (List.Lex.not_nil_right _ _)
      · exact h
  | cons x xs ih =>
    intro ys t u hlen
    cases ys with
    | nil => simp at hlen
    | cons y ys' =>
      simp only [List.cons_append]
      rw [lex_cons_iff_char, lex_cons_iff_char, ih ys' t u (by simpa using hlen)]
      constructor
      · rintro (h | ⟨rfl, h | ⟨rfl, h⟩⟩)
        · exact Or.inl (Or.inl h)
        · exact Or.inl (Or.inr ⟨rfl, h⟩)
        · exact Or.inr ⟨rfl, h⟩
      · rintro ((h | ⟨rfl, h⟩) | ⟨heq, h⟩)
        · exact Or.inl h
        · exact Or.inr ⟨rfl, Or.inl h⟩
        · injection heq with h1 h2
          subst h1
          subst h2
          exact Or.inr ⟨rfl, Or.inr ⟨rfl, h⟩⟩

theorem lex_cons_same_head (c : Char) (t u : List Char) :
    List.Lex (· < ·) (c :: t) (c :: u) ↔ List.Lex (· < ·) t u := by
  rw [lex_cons_iff_char]
  simp [lt_irrefl]

/-- C5: comparing canonical ItemTime strings with the lexicographic string
order agrees with chronological order of the `(base, slot)` pairs. -/
theorem canonical_order_chronological (b₁ s₁ b₂ s₂ : Nat)
    (hb₁ : b₁ ≤ 9999999999999) (hs₁ : s₁ ≤ 99999)
    (hb₂ : b₂ ≤ 9999999999999) (hs₂ : s₂ ≤ 99999) :
    (canonicalItemTime b₁ s₁ < canonicalItemTime b₂ s₂)
      ↔ (b₁ < b₂ ∨ (b₁ = b₂ ∧ s₁ < s₂)) := by
  have hb₁' : b₁ < 10 ^ 13 := by norm_num; omega
  have hb₂' : b₂ < 10 ^ 13 := by norm_num; omega
  have hs₁' : s₁ < 10 ^ 5 := by norm_num; omega
  have hs₂' : s₂ < 10 ^ 5 := by norm_num; omega
  have hb₁20 : b₁ < 10 ^ 20 := by norm_num at *; omega
  have hb₂20 : b₂ < 10 ^ 20 := by norm_num at *; omega
  have hs₁20 : s₁ < 10 ^ 20 := by norm_num at *; omega
  have hs₂20 : s₂ < 10 ^ 20 := by norm_num at *; omega
  rw [String.lt_iff_toList_lt]
  show List.Lex (· < ·) (canonicalItemTime b₁ s₁).data (canonicalItemTime b₂ s₂).data ↔ _
  rw [canonicalItemTime_mk, canonicalItemTime_mk]
  show List.Lex (· < ·)
      ((padDigits 13 b₁).map Nat.digitChar ++ '.' :: (padDigits 5 s₁).map Nat.digitChar)
      ((padDigits 13 b₂).map Nat.digitChar ++ '.' :: (padDigits 5 s₂).map Nat.digitChar) ↔ _
  rw [lex_append_iff _ _ _ _ (by
    rw [List.length_map, List.length_map, length_padDigits 13 b₁ (by omega) (by omega) hb₁',
      length_padDigits 13 b₂ (by omega) (by omega) hb₂'])]
  rw [lex_cons_same_head]
  rw [lex_map_digitChar_iff (padDigits 13 b₁) (padDigits 13 b₂)
    (by rw [length_padDigits 13 b₁ (by omega) (by omega) hb₁',
      length_padDigits 13 b₂ (by omega) (by omega) hb₂'])
    (padDigits_lt10 13 b₁) (padDigits_lt10 13 b₂)]
  rw [lex_map_digitChar_iff (padDigits 5 s₁) (padDigits 5 s₂)
    (by rw [length_padDigits 5 s₁ (by omega) (by omega) hs₁',
      length_padDigits 5 s₂ (by omega) (by omega) hs₂'])
    (padDigits_lt10 5 s₁) (padDigits_lt10 5 s₂)]
  rw [ofDigits_padDigits 13 b₁ hb₁20, ofDigits_padDigits 13 b₂ hb₂20,
    ofDigits_padDigits 5 s₁ hs₁20, ofDigits_padDigits 5 s₂ hs₂20]
  have heq : ((padDigits 13 b₁).map Nat.digitChar = (padDigits 13 b₂).map Nat.digitChar)
      ↔ b₁ = b₂ := by
    constructor
    · intro h
      have h' := map_digitChar_inj (padDigits 13 b₁) (padDigits 13 b₂)
        (padDigits_lt10 13 b₁) (padDigits_lt10 13 b₂) h
      have := congrArg ofDigits h'
      rwa [ofDigits_padDigits 13 b₁ hb₁20, ofDigits_padDigits 13 b₂ hb₂20] at this
    · intro h
      rw [h]
  rw [heq]

/-- C5 witness: a concrete pair of canonical strings compares according to
chronological order. -/
theorem canonical_order_chronological_witness :
    canonicalItemTime 1661564013555 3 < canonicalItemTime 1661564013556 0 :=
  (canonical_order_chronological 1661564013555 3 1661564013556 0
    (by norm_num) (by norm_num) (by norm_num) (by norm_num)).mpr (Or.inl (by norm_num))

/-! ## Claim C7: read-options validation -/

theorem strContainsSub_1to10 (mi : Nat) :
    strContainsSub "1 to 10 when"
      ("`max_items` must be 1 to 10 when `include_item_content` is true, received "
        ++ decimalString mi) := by
  refine ⟨"`max_items` must be ".data,
    " `include_item_content` is true, received ".data ++ (decimalString mi).data, ?_⟩
  rw [data_append]
  rw [show ("`max_items` must be 1 to 10 when `include_item_content` is true, received ").data
      = "`max_items` must be ".data
        ++ ("1 to 10 when".data ++ " `include_item_content` is true, received ".data) from by
    decide]
  simp [List.append_assoc]

theorem strContainsSub_1to50 (mi : Nat) :
    strContainsSub "1 to 50"
      ("`max_items` must be 1 to 50, received " ++ decimalString mi) := by
  refine ⟨"`max_items` must be ".data, ", received ".data ++ (decimalString mi).data, ?_⟩
  rw [data_append]
  rw [show ("`max_items` must be 1 to 50, received ").data
      = "`max_items` must be ".data ++ ("1 to 50".data ++ ", received ".data) from by decide]
  simp [List.append_assoc]

theorem strContainsSub_simultaneous :
    strContainsSub "cannot simultaneously query"
      "cannot simultaneously query with `item_time_after` and `item_time_before`" := by
  refine ⟨[], " with `item_time_after` and `item_time_before`".data, ?_⟩
  decide

theorem validate_pass (given : ReadOptions)
    (ha : ¬(given.include_item_content = true ∧ (given.max_items < 1 ∨ 10 < given.max_items)))
    (hb : ¬(given.max_items < 1 ∨ 50 < given.max_items))
    (hc : ¬(given.item_time_after.isSome = true ∧ given.item_time_before.isSome = true)) :
    validate_read_options given = (do
      let item_time_after ← match given.item_time_after with
        | none => pure (none : Option String)
        | some it => do pure (some (← normalize_item_time it))
      let item_time_before ← match given.item_time_before with
        | none => pure (none : Option String)
        | some it => do pure (some (← normalize_item_time it))
      pure ⟨given.max_items, given.include_item_content, item_time_after, item_time_before⟩) := by
  unfold validate_read_options
  rw [if_neg ha, if_neg hb, if_neg hc]

/-- C7: the validator applies its checks in a fixed order, first failure wins:
(a) `include_item_content` with `max_items` outside `[1, 10]`, message
containing "1 to 10 when"; (b) `max_items` outside `[1, 50]`, message
containing "1 to 50"; (c) both time bounds set, message containing
"cannot simultaneously query"; (d) each bound present is normalized through
the ItemTime codec, propagating its error. -/
theorem validate_read_options_checks (given : ReadOptions) :
    (given.include_item_content = true → (given.max_items < 1 ∨ 10 < given.max_items) →
      validate_read_options given
        = Except.error ⟨Kind.IllegalParameter
            ("`max_items` must be 1 to 10 when `include_item_content` is true, received "
              ++ decimalString given.max_items)⟩ ∧
      strContainsSub "1 to 10 when"
        ("`max_items` must be 1 to 10 when `include_item_content` is true, received "
          ++ decimalString given.max_items)) ∧
    (¬(given.include_item_content = true ∧ (given.max_items < 1 ∨ 10 < given.max_items)) →
      (given.max_items < 1 ∨ 50 < given.max_items) →
      validate_read_options given
        = Except.error ⟨Kind.IllegalParameter
            ("`max_items` must be 1 to 50, received " ++ decimalString given.max_items)⟩ ∧
      strContainsSub "1 to 50"
        ("`max_items` must be 1 to 50, received " ++ decimalString given.max_items)) ∧
    (¬(given.include_item_content = true ∧ (given.max_items < 1 ∨ 10 < given.max_items)) →
      ¬(given.max_items < 1 ∨ 50 < given.max_items) →
      ∀ x y, given.item_time_after = some x → given.item_time_before = some y →
      validate_read_options given
        = Except.error ⟨Kind.IllegalParameter
            "cannot simultaneously query with `item_time_after` and `item_time_before`"⟩ ∧
      strContainsSub "cannot simultaneously query"
        "cannot simultaneously query with `item_time_after` and `item_time_before`") ∧
    (¬(given.include_item_content = true ∧ (given.max_items < 1 ∨ 10 < given.max_items)) →
      ¬(given.max_items < 1 ∨ 50 < given.max_items) →
      (∀ x, given.item_time_after = some x → given.item_time_before = none →
        (∀ e, normalize_item_time x = Except.error e →
          validate_read_options given = Except.error e) ∧
        (∀ x', normalize_item_time x = Except.ok x' →
          validate_read_options given
            = Except.ok ⟨given.max_items, given.include_item_content, some x', none⟩)) ∧
      (∀ y, given.item_time_after = none → given.item_time_before = some y →
        (∀ e, normalize_item_time y = Except.error e →
          validate_read_options given = Except.error e) ∧
        (∀ y', normalize_item_time y = Except.ok y' →
          validate_read_options given
            = Except.ok ⟨given.max_items, given.include_item_content, none, some y'⟩)) ∧
      (given.item_time_after = none → given.item_time_before = none →
        validate_read_options given
          = Except.ok ⟨given.max_items, given.include_item_content, none, none⟩)) := by
  refine ⟨?_, ?_, ?_, ?_⟩
  · intro ha hmi
    refine ⟨?_, strContainsSub_1to10 given.max_items⟩
    unfold validate_read_options
    rw [if_pos ⟨ha, hmi⟩]
  · intro ha hmi
    refine ⟨?_, strContainsSub_1to50 given.max_items⟩
    unfold validate_read_options
    rw [if_neg ha, if_pos hmi]
  · intro ha hb x y hx hy
    refine ⟨?_, strContainsSub_simultaneous⟩
    unfold validate_read_options
    rw [if_neg ha, if_neg hb, if_pos (by rw [hx, hy]; exact ⟨rfl, rfl⟩)]
  · intro ha hb
    refine ⟨?_, ?_, ?_⟩
    · intro x hx hy
      have hpass := validate_pass given ha hb (by rw [hy]; simp)
      constructor
      · intro e he
        rw [hpass, hx, hy]
        simp [he]
      · intro x' hx'
        rw [hpass, hx, hy]
        simp [hx']
    · intro y hx hy
      have hpass := validate_pass given ha hb (by rw [hx]; simp)
      constructor
      · intro e he
        rw [hpass, hx, hy]
        simp [he]
      · intro y' hy'
        rw [hpass, hx, hy]
        simp [hy']
    · intro hx hy
      have hpass := validate_pass given ha hb (by rw [hx]; simp)
      rw [hpass, hx, hy]
      rfl

/-- C7 witness: the three rejected option shapes and one normalizing pass at
concrete values. -/
theorem validate_read_options_checks_witness :
    validate_read_options ⟨11, true, none, none⟩
      = Except.error ⟨Kind.IllegalParameter
          "`max_items` must be 1 to 10 when `include_item_content` is true, received 11"⟩ ∧
    validate_read_options ⟨51, false, none, none⟩
      = Except.error ⟨Kind.IllegalParameter "`max_items` must be 1 to 50, received 51"⟩ ∧
    validate_read_options ⟨5, false, some "12", some "13"⟩
      = Except.error ⟨Kind.IllegalParameter
          "cannot simultaneously query with `item_time_after` and `item_time_before`"⟩ ∧
    validate_read_options ⟨5, false, some "12", none⟩
      = Except.ok ⟨5, false, some "0000000000012.00000", none⟩ := by
  refine ⟨?_, ?_, ?_, ?_⟩
  · have h := ((validate_read_options_checks ⟨11, true, none, none⟩).1 rfl
      (by decide)).1
    rw [h]
    rfl
  · have h := ((validate_read_options_checks ⟨51, false, none, none⟩).2.1
      (by decide) (by decide)).1
    rw [h]
    rfl
  · exact ((validate_read_options_checks ⟨5, false, some "12", some "13"⟩).2.2.1
      (by decide) (by decide) "12" "13" rfl rfl).1
  · have h := (((validate_read_options_checks ⟨5, false, some "12", none⟩).2.2.2
      (by decide) (by decide)).1 "12" rfl rfl).2 "0000000000012.00000" (by rfl)
    exact h

/-! ## Claims C8, C10: response interpretation -/

/-- C8 counterexample: with `error` present but the empty string and
`error_detail` present, the message is the detail alone, not the `" | "`-join
of the two strings. -/
theorem api_error_empty_error_join_cex :
    api_error (fun _ => some ⟨none, some "", some "problem detail"⟩) 404 "body"
      = ⟨Kind.DetailedHttpCode 404 "problem detail"⟩ ∧
    ("problem detail" : String) ≠ "" ++ " | " ++ "problem detail" :=
  ⟨rfl, by decide⟩

/-- C8 (amended): interpreting a transport response: status 200 decodes the
expected payload, decode failure becoming `Deserialization` with the decoder
message; any other status yields `DetailedHttpCode` with the message built
from the structured error body when it decodes (`error` and `error_detail`
joined by `" | "` when both are present and `error` is non-empty, the detail
alone when `error` is the empty string, else whichever is present), and a bare
`HttpCode` when it does not — some error is always produced. -/
theorem interpret_response_classification {α : Type}
    (decodeOk : String → Except String α) (decodeErr : String → Option ApiErrorData)
    (code : Nat) (text : String) :
    (code = 200 →
      (∀ v, decodeOk text = Except.ok v →
        interpret_response decodeOk decodeErr code text = Except.ok v) ∧
      (∀ m, decodeOk text = Except.error m →
        interpret_response decodeOk decodeErr code text
          = Except.error ⟨Kind.Deserialization m⟩)) ∧
    (code ≠ 200 →
      (∀ data, decodeErr text = some data →
        interpret_response decodeOk decodeErr code text
          = Except.error ⟨Kind.DetailedHttpCode code (msg_from_api_error_data data)⟩) ∧
      (decodeErr text = none →
        interpret_response decodeOk decodeErr code text
          = Except.error ⟨Kind.HttpCode code⟩) ∧
      (∃ er, interpret_response decodeOk decodeErr code text = Except.error er)) ∧
    (∀ c e d, e.isEmpty = false →
      msg_from_api_error_data ⟨c, some e, some d⟩ = e ++ " | " ++ d) ∧
    (∀ c d, msg_from_api_error_data ⟨c, some "", some d⟩ = d) ∧
    (∀ c e, msg_from_api_error_data ⟨c, some e, none⟩ = e) ∧
    (∀ c d, msg_from_api_error_data ⟨c, none, some d⟩ = d) := by
  refine ⟨?_, ?_, ?_, ?_, ?_, ?_⟩
  · intro h200
    constructor
    · intro v hv
      unfold interpret_response
      rw [if_pos h200, hv]
    · intro m hm
      unfold interpret_response
      rw [if_pos h200, hm]
  · intro hcode
    refine ⟨?_, ?_, ?_⟩
    · intro data hdata
      unfold interpret_response api_error
      rw [if_neg hcode, hdata]
    · intro hnone
      unfold interpret_response api_error
      rw [if_neg hcode, hnone]
    · cases hd : decodeErr text with
      | none =>
        refine ⟨⟨Kind.HttpCode code⟩, ?_⟩
        unfold interpret_response api_error
        rw [if_neg hcode, hd]
      | some data =>
        refine ⟨⟨Kind.DetailedHttpCode code (msg_from_api_error_data data)⟩, ?_⟩
        unfold interpret_response api_error
        rw [if_neg hcode, hd]
  · intro c e d hne
    unfold msg_from_api_error_data
    simp [hne]
  · intro c d
    rfl
  · intro c e
    rfl
  · intro c d
    rfl

/-- C8 witness: the three interpretation outcomes at concrete inputs. -/
theorem interpret_response_classification_witness :
    interpret_response (fun _ => Except.ok (5 : Nat)) (fun _ => none) 200 "body"
      = Except.ok 5 ∧
    interpret_response (fun _ => Except.ok (5 : Nat)) (fun _ => none) 500 "<html>"
      = Except.error ⟨Kind.HttpCode 500⟩ ∧
    interpret_response (fun _ => Except.ok (5 : Nat))
        (fun _ => some ⟨none, some "not found", none⟩) 404 "x"
      = Except.error ⟨Kind.DetailedHttpCode 404 "not found"⟩ := by
  refine ⟨?_, ?_, ?_⟩
  · exact ((interpret_response_classification (fun _ => Except.ok (5 : Nat))
      (fun _ => none) 200 "body").1 rfl).1 5 rfl
  · exact ((interpret_response_classification (fun _ => Except.ok (5 : Nat))
      (fun _ => none) 500 "<html>").2.1 (by omega)).2.1 rfl
  · have h := ((interpret_response_classification (fun _ => Except.ok (5 : Nat))
      (fun _ => some ⟨none, some "not found", none⟩) 404 "x").2.1 (by omega)).1
      ⟨none, some "not found", none⟩ rfl
    rw [h]
    rfl

/-- C10: when a non-200 body decodes as the error shape with both `error` and
`error_detail` absent, the result is `DetailedHttpCode` with an empty message,
not a fall-back to the bare `HttpCode` error. -/
theorem api_error_absent_fields_empty_message
    (decodeErr : String → Option ApiErrorData) (code : Nat) (text : String)
    (data : ApiErrorData) (_hcode : code ≠ 200) (h : decodeErr text = some data)
    (he : data.error = none) (hd : data.error_detail = none) :
    api_error decodeErr code text = ⟨Kind.DetailedHttpCode code ""⟩ ∧
    ∀ c, api_error decodeErr code text ≠ ⟨Kind.HttpCode c⟩ := by
  obtain ⟨dc, de, dd⟩ := data
  simp only at he hd
  subst he
  subst hd
  constructor
  · unfold api_error
    rw [h]
    rfl
  · intro c hne
    unfold api_error at hne
    rw [h] at hne
    simp [msg_from_api_error_data] at hne

/-- C10 witness: the body `"{}"` (all fields absent) at status 404. -/
theorem api_error_absent_fields_empty_message_witness :
    api_error (fun _ => some ⟨some 400, none, none⟩) 404 "{}"
      = ⟨Kind.DetailedHttpCode 404 ""⟩ :=
  (api_error_absent_fields_empty_message (fun _ => some ⟨some 400, none, none⟩) 404 "{}"
    ⟨some 400, none, none⟩ (by omega) rfl rfl rfl).1
